import Mathlib

/-!
Formal model of the record validation and derivation pipeline of the
Urban Mobility Data Explorer repository (`backend/clean_transform.py`).

The pipeline reads raw CSV rows, parses the cells into typed optional
values, runs an ordered sequence of validity checks (first failure wins),
and routes each row either to a cleaned output record or to an exclusion
log entry while maintaining per-reason counters and a run summary.

Modelling conventions:
* Python optional values become `Option`.
* Decimal cell values (coordinates, distances, fares) are modelled as `ℚ`;
  all comparisons in the pipeline are order/equality comparisons that the
  rational model reflects faithfully.
* A parsed `datetime` is modelled as an integer count of microseconds
  (Python `datetime` has microsecond resolution); `total_seconds` followed
  by `int(...)` truncation is modelled exactly on `ℚ`.
* The transcendental haversine computation is modelled over `ℝ` in its own
  section.  Because the per-row pipeline otherwise only compares rational
  values, the row record carries the already computed haversine fallback
  value (`hv_km_pre` in the source, computed once per row before distance
  resolution) as an `Option ℚ` oracle field; no control-flow decision in
  the pipeline depends on how that number was produced.
-/

namespace CleanTransform

/-- Exclusion reason codes, in the order the stages appear in `main`
(`clean_transform.py` lines 115-176). -/
inductive Reason
  | bad_timestamps
  | bad_coordinates
  | bad_distance
  | zero_distance
  | bad_fare
  | bad_tip
  | nonpositive_duration
  | implausible_speed
deriving DecidableEq, Repr, Fintype

/-- The `--distance-unit` CLI flag, `choices=["miles", "km"]`. -/
inductive DistUnit
  | miles
  | km
deriving DecidableEq, Repr

/-- `argparse` default for `--distance-unit` (line 68: `default="miles"`). -/
def defaultDistanceUnit : DistUnit := DistUnit.miles

/-- `NYC_LAT_MIN = 40.4774` -/
def NYC_LAT_MIN : ℚ := 40.4774
/-- `NYC_LAT_MAX = 40.9176` -/
def NYC_LAT_MAX : ℚ := 40.9176
/-- `NYC_LON_MIN = -74.2591` -/
def NYC_LON_MIN : ℚ := -74.2591
/-- `NYC_LON_MAX = -73.7004` -/
def NYC_LON_MAX : ℚ := -73.7004
/-- `MAX_SPEED_KMPH = 120.0` -/
def MAX_SPEED_KMPH : ℚ := 120
/-- `MAX_FARE = 500.0` -/
def MAX_FARE : ℚ := 500

/-! ### The integer field parser (`parse_int`, lines 23-27)

`parse_int` evaluates `int(v)` for a cell that is not one of the sentinels
`None`, `""`, `"\\N"`; any exception yields `None`.  Python `int` applied
to a *string* accepts only an integer literal: optional surrounding
whitespace, an optional sign, then digits optionally separated by single
underscores.  It does **not** accept a floating point literal such as
`"3.0"` (that raises `ValueError`). -/

/-- ASCII decimal digit test (code points 48 through 57). -/
def isDig (c : Char) : Bool :=
  decide (48 ≤ c.toNat ∧ c.toNat ≤ 57)

/-- Whitespace as stripped by Python `str.strip()` (ASCII part: space, tab,
newline, vertical tab, form feed, carriage return). -/
def pyWS (c : Char) : Bool :=
  decide (c.toNat = 32 ∨ c.toNat = 9 ∨ c.toNat = 10 ∨ c.toNat = 11 ∨
    c.toNat = 12 ∨ c.toNat = 13)

/-- Digit tail of a Python integer literal: each further character is a
digit or a single underscore followed by a digit.  Accumulates the decimal
value. -/
def pyDigitsAux : ℕ → List Char → Option ℕ
  | acc, [] => some acc
  | acc, c :: cs =>
    if isDig c then pyDigitsAux (10 * acc + (c.toNat - 48)) cs
    else if c = '_' then
      match cs with
      | [] => none
      | d :: cs2 =>
        if isDig d then pyDigitsAux (10 * acc + (d.toNat - 48)) cs2 else none
    else none

/-- A nonempty digit run (with optional internal underscores), as accepted
after the sign of a Python integer literal. -/
def pyDigits : List Char → Option ℕ
  | [] => none
  | c :: cs => if isDig c then pyDigitsAux (c.toNat - 48) cs else none

/-- Python `str.strip()` of surrounding whitespace, on a character list. -/
def pyStrip (cs : List Char) : List Char :=
  ((cs.dropWhile pyWS).reverse.dropWhile pyWS).reverse

/-- Python `int(s)` on a string: strip whitespace, optional sign, digits.
Returns `none` where CPython raises `ValueError`. -/
def pyIntOfString (s : String) : Option ℤ :=
  match pyStrip s.toList with
  | '+' :: rest => Option.map (fun n : ℕ => (n : ℤ)) (pyDigits rest)
  | '-' :: rest => Option.map (fun n : ℕ => -(n : ℤ)) (pyDigits rest)
  | cs => Option.map (fun n : ℕ => (n : ℤ)) (pyDigits cs)

/-- `parse_int` (lines 23-27): sentinel cells (`None`, `""`, `"\\N"`) are
absent; otherwise `int(v)`, with any exception mapped to absent. -/
def parse_int (v : Option String) : Option ℤ :=
  match v with
  | none => none
  | some s => if s = "" ∨ s = "\\N" then none else pyIntOfString s

/-- Independent decimal value of a digit list (for stating what
`parse_int` returns on a plain digit string). -/
def decVal (cs : List Char) : ℕ :=
  cs.foldl (fun a c => 10 * a + (c.toNat - 48)) 0

/-! ### Row model and the scalar helpers of the pipeline -/

/-- One input row after field aliasing (`get_field`) and cell parsing
(`parse_float`, `parse_int`, `parse_dt`), exactly the optional values the
loop body of `main` works with:

* `p_dt`, `d_dt` — `parse_dt` results (lines 111-114), as microseconds;
* `plat`, `plon`, `dlat`, `dlon` — parsed coordinates (lines 121-124);
* `reported_dist` — parsed reported distance (line 132);
* `fare`, `tip` — parsed fare and tip (lines 150-151);
* `passenger_raw` — `parse_int(get_field(row, ["passenger_count",
  "passengers"]))` (line 195);
* `payment` — `get_field(row, ["payment_type", "payment"])` (line 196);
* `hv_km_pre` — `haversine_km(plat, plon, dlat, dlon)` (line 133), the
  precomputed haversine fallback (an `Option`, since the source guards the
  computation with `try/except`). -/
structure Row where
  p_dt : Option ℤ
  d_dt : Option ℤ
  plat : Option ℚ
  plon : Option ℚ
  dlat : Option ℚ
  dlon : Option ℚ
  reported_dist : Option ℚ
  fare : Option ℚ
  tip : Option ℚ
  passenger_raw : Option ℤ
  payment : Option String
  hv_km_pre : Option ℚ
deriving DecidableEq, Repr

/-- `in_bbox` (lines 40-43): both coordinates present and inside the fixed
rectangle. -/
def in_bbox (lat lon : Option ℚ) : Bool :=
  match lat, lon with
  | some la, some lo =>
      decide (NYC_LAT_MIN ≤ la ∧ la ≤ NYC_LAT_MAX ∧ NYC_LON_MIN ≤ lo ∧ lo ≤ NYC_LON_MAX)
  | _, _ => false

/-- Distance resolution (lines 132-137): a present reported distance is
converted (miles → km by the factor 1.60934, km passes through); an absent
reported distance falls back to the precomputed haversine value. -/
def distKm (u : DistUnit) (row : Row) : Option ℚ :=
  match row.reported_dist with
  | some r => some (if u = DistUnit.miles then r * 1.60934 else r)
  | none => row.hv_km_pre

/-- Python `int(...)` truncation toward zero of a rational. -/
def truncQ (q : ℚ) : ℤ :=
  if 0 ≤ q then ⌊q⌋ else ⌈q⌉

/-- `duration_sec = int((d_dt - p_dt).total_seconds())` (line 163), with
instants in microseconds. -/
def durationSec (p d : ℤ) : ℤ :=
  truncQ (((d : ℚ) - (p : ℚ)) / 1000000)

/-- Round-half-to-even of a rational to an integer (Python `round` policy). -/
def roundHalfEven (q : ℚ) : ℤ :=
  if q - ⌊q⌋ < 1/2 then ⌊q⌋
  else if 1/2 < q - ⌊q⌋ then ⌊q⌋ + 1
  else if ⌊q⌋ % 2 = 0 then ⌊q⌋ else ⌊q⌋ + 1

/-- Python `round(x, n)` modelled on rationals. -/
def pyRound (n : ℕ) (q : ℚ) : ℚ :=
  (roundHalfEven (q * 10 ^ n) : ℚ) / 10 ^ n

/-- Fare check condition (line 152): fare present and negative or above the
ceiling. -/
def fare_bad (f : Option ℚ) : Bool :=
  match f with
  | some x => decide (x < 0 ∨ MAX_FARE < x)
  | none => false

/-- Tip check condition (line 157): tip present and negative. -/
def tip_bad (t : Option ℚ) : Bool :=
  match t with
  | some x => decide (x < 0)
  | none => false

/-- `avg_speed_kmh = dist_km / hours if hours > 0 else 0.0` (lines 170-171). -/
def avg_speed (dk : ℚ) (dur : ℤ) : ℚ :=
  let hours : ℚ := (dur : ℚ) / 3600
  if 0 < hours then dk / hours else 0

/-- `p_dt.hour` for an epoch-microsecond instant. -/
def hourOf (m : ℤ) : ℤ :=
  ((m.fdiv 1000000).fdiv 3600) % 24

/-- `p_dt.weekday()` (Monday = 0) for an epoch-microsecond instant
(1970-01-01 was a Thursday, weekday 3). -/
def weekdayOf (m : ℤ) : ℤ :=
  ((m.fdiv 1000000).fdiv 86400 + 3) % 7

/-- The canonical cleaned output record (the `out` dict, lines 184-203).
Timestamps are emitted at second precision (`strftime` drops the
microsecond field), modelled as floor-to-second. -/
structure CleanedTrip where
  pickup_datetime : ℤ
  dropoff_datetime : ℤ
  pickup_lat : Option ℚ
  pickup_lon : Option ℚ
  dropoff_lat : Option ℚ
  dropoff_lon : Option ℚ
  trip_distance_km : ℚ
  trip_duration_sec : ℤ
  fare_amount : Option ℚ
  tip_amount : ℚ
  passenger_count : ℤ
  payment_type : Option String
  avg_speed_kmh : ℚ
  fare_per_km : Option ℚ
  pickup_hour : ℤ
  weekday : ℤ
  is_weekend : ℤ
  haversine_km : Option ℚ
deriving DecidableEq, Repr

/-- Builds the `out` dict for an accepted row (lines 178-203): `p`, `d` are
the parsed instants, `dk` the resolved distance. -/
def mkTrip (row : Row) (p d : ℤ) (dk : ℚ) : CleanedTrip :=
  { pickup_datetime := p.fdiv 1000000
    dropoff_datetime := d.fdiv 1000000
    pickup_lat := row.plat.map (pyRound 6)
    pickup_lon := row.plon.map (pyRound 6)
    dropoff_lat := row.dlat.map (pyRound 6)
    dropoff_lon := row.dlon.map (pyRound 6)
    trip_distance_km := pyRound 6 dk
    trip_duration_sec := durationSec p d
    fare_amount := row.fare.map (pyRound 2)
    tip_amount := match row.tip with
      | some t => pyRound 2 t
      | none => 0
    passenger_count := match row.passenger_raw with
      | some n => if n = 0 then 1 else n
      | none => 1
    payment_type := row.payment
    avg_speed_kmh := pyRound 3 (avg_speed dk (durationSec p d))
    fare_per_km := match row.fare with
      | some f => if 0 < dk then some (pyRound 3 (f / dk)) else none
      | none => none
    pickup_hour := hourOf p
    weekday := weekdayOf p
    is_weekend := if 5 ≤ weekdayOf p then 1 else 0
    haversine_km := row.hv_km_pre.map (pyRound 3) }

/-- The fate of one row: an emitted cleaned record or an exclusion with a
reason code. -/
inductive RowResult
  | cleaned (t : CleanedTrip)
  | excluded (r : Reason)
deriving DecidableEq, Repr

/-- One iteration of the loop body of `main` (lines 108-206): the ordered
validation stages with first-failure exit, then the derivation of the
cleaned record. -/
def processRow (u : DistUnit) (row : Row) : RowResult :=
  match row.p_dt, row.d_dt with
  | none, _ => RowResult.excluded Reason.bad_timestamps
  | some _, none => RowResult.excluded Reason.bad_timestamps
  | some p, some d =>
    if d ≤ p then RowResult.excluded Reason.bad_timestamps
    else if !in_bbox row.plat row.plon || !in_bbox row.dlat row.dlon then
      RowResult.excluded Reason.bad_coordinates
    else match distKm u row with
      | none => RowResult.excluded Reason.bad_distance
      | some dk =>
        if dk < 0 then RowResult.excluded Reason.bad_distance
        else if dk = 0 then RowResult.excluded Reason.zero_distance
        else if fare_bad row.fare then RowResult.excluded Reason.bad_fare
        else if tip_bad row.tip then RowResult.excluded Reason.bad_tip
        else if durationSec p d ≤ 0 then RowResult.excluded Reason.nonpositive_duration
        else if MAX_SPEED_KMPH < avg_speed dk (durationSec p d) then
          RowResult.excluded Reason.implausible_speed
        else RowResult.cleaned (mkTrip row p d dk)

/-- The exclusion reason of a result, `none` for an accepted row. -/
def resultReason : RowResult → Option Reason
  | RowResult.cleaned _ => none
  | RowResult.excluded r => some r

/-- Whether a result is an accepted (cleaned) row. -/
def isCleaned : RowResult → Bool
  | RowResult.cleaned _ => true
  | RowResult.excluded _ => false

/-- The emitted `tip_amount` of a result, `none` for an excluded row. -/
def tipOf : RowResult → Option ℚ
  | RowResult.cleaned t => some t.tip_amount
  | RowResult.excluded _ => none

/-- The emitted `fare_amount` of a result (doubly optional: outer `none`
for an excluded row, inner for a null fare). -/
def fareOf : RowResult → Option (Option ℚ)
  | RowResult.cleaned t => some t.fare_amount
  | RowResult.excluded _ => none

/-- The emitted `passenger_count` of a result, `none` for an excluded row. -/
def passengerOf : RowResult → Option ℤ
  | RowResult.cleaned t => some t.passenger_count
  | RowResult.excluded _ => none

/-! ### The stage list (first-failure-wins view of the same checks) -/

/-- The failure condition of each named stage, as a pure predicate of the
row (each reads exactly the fields its check in `main` reads). -/
def stageFails (u : DistUnit) (row : Row) : Reason → Bool
  | Reason.bad_timestamps =>
      match row.p_dt, row.d_dt with
      | some p, some d => decide (d ≤ p)
      | _, _ => true
  | Reason.bad_coordinates =>
      !in_bbox row.plat row.plon || !in_bbox row.dlat row.dlon
  | Reason.bad_distance =>
      match distKm u row with
      | some dk => decide (dk < 0)
      | none => true
  | Reason.zero_distance =>
      match distKm u row with
      | some dk => decide (dk = 0)
      | none => false
  | Reason.bad_fare => fare_bad row.fare
  | Reason.bad_tip => tip_bad row.tip
  | Reason.nonpositive_duration =>
      match row.p_dt, row.d_dt with
      | some p, some d => decide (durationSec p d ≤ 0)
      | _, _ => false
  | Reason.implausible_speed =>
      match row.p_dt, row.d_dt, distKm u row with
      | some p, some d, some dk => decide (MAX_SPEED_KMPH < avg_speed dk (durationSec p d))
      | _, _, _ => false

/-- The fixed stage order of the pipeline. -/
def stageOrder : List Reason :=
  [Reason.bad_timestamps, Reason.bad_coordinates, Reason.bad_distance,
   Reason.zero_distance, Reason.bad_fare, Reason.bad_tip,
   Reason.nonpositive_duration, Reason.implausible_speed]

/-! ### The run loop: counters and summary (lines 95-96, 108-213) -/

/-- The mutable counters of `main`: `total`, `cleaned`, and the
`excluded` dict (absent keys read as 0, so a total function). -/
structure RunState where
  total : ℕ
  cleaned : ℕ
  counts : Reason → ℕ

/-- `total = cleaned = 0; excluded = {}` (lines 95-96). -/
def initState : RunState :=
  { total := 0, cleaned := 0, counts := fun _ => 0 }

/-- Counter updates of one loop iteration: `total += 1`, then either
`excluded[r] += 1` (on an exclusion) or `cleaned += 1` (on acceptance). -/
def stepState (u : DistUnit) (st : RunState) (row : Row) : RunState :=
  match processRow u row with
  | RowResult.cleaned _ =>
      { st with total := st.total + 1, cleaned := st.cleaned + 1 }
  | RowResult.excluded r =>
      { st with total := st.total + 1,
                counts := Function.update st.counts r (st.counts r + 1) }

/-- The counters after processing a whole input. -/
def processRun (u : DistUnit) (rows : List Row) : RunState :=
  rows.foldl (stepState u) initState

/-- The final `summary` dict (lines 208-213). -/
structure RunSummary where
  total_rows : ℕ
  cleaned_rows : ℕ
  excluded_rows : ℕ
  excluded_counts : Reason → ℕ

/-- `summary = {"total_rows": total, "cleaned_rows": cleaned,
"excluded_rows": total - cleaned, "excluded_counts": excluded}`. -/
def runSummary (u : DistUnit) (rows : List Row) : RunSummary :=
  { total_rows := (processRun u rows).total
    cleaned_rows := (processRun u rows).cleaned
    excluded_rows := (processRun u rows).total - (processRun u rows).cleaned
    excluded_counts := (processRun u rows).counts }

/-- The cleaned output file: the cleaned record of every accepted row, in
input order (`w.writerow(out)`, line 205). -/
def cleanedOut (u : DistUnit) (rows : List Row) : List CleanedTrip :=
  rows.filterMap fun row =>
    match processRow u row with
    | RowResult.cleaned t => some t
    | RowResult.excluded _ => none

/-- The exclusion log: the reason of every rejected row, in input order
(`logw.writerow(...)` on each exclusion branch). -/
def exclusionLog (u : DistUnit) (rows : List Row) : List Reason :=
  rows.filterMap fun row =>
    match processRow u row with
    | RowResult.cleaned _ => none
    | RowResult.excluded r => some r

/-! ### Concrete example rows (used by the witness theorems below) -/

/-- A row the pipeline accepts: eight minutes between whole-second
timestamps, in-bounds Manhattan coordinates, a reported distance of one
mile, absent fare and tip, raw passenger count 0. -/
def wRowA : Row :=
  { p_dt := some 0, d_dt := some 480000000
    plat := some 40.75, plon := some (-74.0)
    dlat := some 40.76, dlon := some (-73.99)
    reported_dist := some 1
    fare := none, tip := none
    passenger_raw := some 0
    payment := none
    hv_km_pre := some (8/5) }

/-- A row whose dropoff instant equals its pickup instant. -/
def wRowTs : Row :=
  { wRowA with d_dt := some 0 }

/-- A row with a reported distance of exactly zero. -/
def wRowZero : Row :=
  { wRowA with reported_dist := some 0 }

/-- A row with a reported distance of two (miles or km per the flag). -/
def wRowMiles : Row :=
  { wRowA with reported_dist := some 2 }

/-- A row with no reported distance and a precomputed haversine value. -/
def wRowHv : Row :=
  { wRowA with reported_dist := none, hv_km_pre := some 3 }

/-! ### The haversine distance (`haversine_km`, lines 45-54)

The great-circle computation is transcendental, so it is modelled over `ℝ`.
`math.radians`, `math.sin`, `math.cos`, `math.atan2` never raise on finite
arguments; the only statement in the guarded block that can raise is
`math.sqrt`, on a negative argument, in which case the `except`
branch returns `None`. -/

/-- `math.radians(x)`: degrees to radians. -/
noncomputable def radians (x : ℝ) : ℝ := x * (Real.pi / 180)

open Classical in
/-- `math.atan2(y, x)`: the two-argument arctangent. -/
noncomputable def atan2 (y x : ℝ) : ℝ :=
  if 0 < x then Real.arctan (y / x)
  else if x < 0 ∧ 0 ≤ y then Real.arctan (y / x) + Real.pi
  else if x < 0 ∧ y < 0 then Real.arctan (y / x) - Real.pi
  else if x = 0 ∧ 0 < y then Real.pi / 2
  else if x = 0 ∧ y < 0 then -(Real.pi / 2)
  else 0

/-- The intermediate value `a` of `haversine_km` (line 50). -/
noncomputable def havA (lat1 lon1 lat2 lon2 : ℝ) : ℝ :=
  Real.sin (radians (lat2 - lat1) / 2) ^ 2 +
    Real.cos (radians lat1) * Real.cos (radians lat2) *
      Real.sin (radians (lon2 - lon1) / 2) ^ 2

open Classical in
/-- `haversine_km` (lines 45-54) with `R = 6371.0`:
`c = 2 * atan2(sqrt(a), sqrt(1 - a))`, result `R * c`; `none` models the
`except` branch (`math.sqrt` raises when `a < 0` or `1 - a < 0`). -/
noncomputable def haversine_km (lat1 lon1 lat2 lon2 : ℝ) : Option ℝ :=
  if havA lat1 lon1 lat2 lon2 < 0 ∨ 1 - havA lat1 lon1 lat2 lon2 < 0 then none
  else some (6371 * (2 * atan2 (Real.sqrt (havA lat1 lon1 lat2 lon2))
    (Real.sqrt (1 - havA lat1 lon1 lat2 lon2))))

end CleanTransform

/-!
## Verification

Helper lemmas first, then one theorem per claim (with its witness or
counterexample where applicable).
-/

namespace CleanTransform

lemma atan2_zero_one : atan2 0 1 = 0 := by
  unfold atan2
  rw [if_pos one_pos]
  norm_num

lemma havA_self (lat lon : ℝ) : havA lat lon lat lon = 0 := by
  unfold havA radians
  simp

lemma havA_comm (lat1 lon1 lat2 lon2 : ℝ) :
    havA lat1 lon1 lat2 lon2 = havA lat2 lon2 lat1 lon1 := by
  have h : ∀ u v : ℝ,
      Real.sin (radians (u - v) / 2) ^ 2 = Real.sin (radians (v - u) / 2) ^ 2 := by
    intro u v
    have hr : radians (u - v) = -radians (v - u) := by unfold radians; ring
    rw [hr, neg_div, Real.sin_neg, neg_sq]
  unfold havA
  rw [h lat2 lat1, h lon2 lon1]
  ring

/-- The sequential checks of `processRow` compute exactly the first failing
stage of the ordered stage list (and acceptance means no stage fails). -/
lemma resultReason_eq_find (u : DistUnit) (row : Row) :
    resultReason (processRow u row) = stageOrder.find? (stageFails u row) := by
  rcases hp : row.p_dt with _ | p
  · simp [processRow, hp, resultReason, stageOrder, List.find?, stageFails]
  rcases hd : row.d_dt with _ | d
  · simp [processRow, hp, hd, resultReason, stageOrder, List.find?, stageFails]
  by_cases hdp : d ≤ p
  · simp [processRow, hp, hd, hdp, resultReason, stageOrder, List.find?, stageFails]
  cases hc : (!in_bbox row.plat row.plon || !in_bbox row.dlat row.dlon) with
  | true => simp [processRow, hp, hd, hdp, hc, resultReason, stageOrder, List.find?, stageFails]
  | false =>
    rcases hdist : distKm u row with _ | dk
    · simp [processRow, hp, hd, hdp, hc, hdist, resultReason, stageOrder, List.find?, stageFails]
    by_cases hneg : dk < 0
    · simp [processRow, hp, hd, hdp, hc, hdist, hneg, resultReason, stageOrder, List.find?,
        stageFails]
    by_cases hzero : dk = 0
    · simp [processRow, hp, hd, hdp, hc, hdist, hneg, hzero, resultReason, stageOrder,
        List.find?, stageFails]
    cases hfare : fare_bad row.fare with
    | true => simp [processRow, hp, hd, hdp, hc, hdist, hneg, hzero, hfare, resultReason,
        stageOrder, List.find?, stageFails]
    | false =>
      cases htip : tip_bad row.tip with
      | true => simp [processRow, hp, hd, hdp, hc, hdist, hneg, hzero, hfare, htip,
          resultReason, stageOrder, List.find?, stageFails]
      | false =>
        by_cases hdur : durationSec p d ≤ 0
        · simp [processRow, hp, hd, hdp, hc, hdist, hneg, hzero, hfare, htip, hdur,
            resultReason, stageOrder, List.find?, stageFails]
        by_cases hspd : MAX_SPEED_KMPH < avg_speed dk (durationSec p d)
        · simp [processRow, hp, hd, hdp, hc, hdist, hneg, hzero, hfare, htip, hdur, hspd,
            resultReason, stageOrder, List.find?, stageFails]
        · simp [processRow, hp, hd, hdp, hc, hdist, hneg, hzero, hfare, htip, hdur, hspd,
            resultReason, stageOrder, List.find?, stageFails]

lemma resultReason_none_iff (res : RowResult) :
    resultReason res = none ↔ isCleaned res = true := by
  cases res <;> simp [resultReason, isCleaned]

lemma sum_update_succ (c : Reason → ℕ) (r : Reason) :
    ∑ x, Function.update c r (c r + 1) x = (∑ x, c x) + 1 := by
  rw [Finset.sum_update_of_mem (Finset.mem_univ r)]
  rw [← Finset.sum_erase_add Finset.univ c (Finset.mem_univ r)]
  rw [Finset.sdiff_singleton_eq_erase]
  omega

lemma stepState_invariant (u : DistUnit) (st : RunState) (row : Row)
    (h : st.total = st.cleaned + ∑ x, st.counts x) :
    (stepState u st row).total =
      (stepState u st row).cleaned + ∑ x, (stepState u st row).counts x := by
  unfold stepState
  cases processRow u row with
  | cleaned t => simp; omega
  | excluded r => simp [sum_update_succ]; omega

lemma foldl_invariant (u : DistUnit) (rows : List Row) :
    ∀ st : RunState, st.total = st.cleaned + ∑ x, st.counts x →
      (rows.foldl (stepState u) st).total =
        (rows.foldl (stepState u) st).cleaned + ∑ x, (rows.foldl (stepState u) st).counts x := by
  induction rows with
  | nil => intro st h; simpa using h
  | cons row rows ih =>
    intro st h
    simpa using ih (stepState u st row) (stepState_invariant u st row h)

lemma foldl_total (u : DistUnit) (rows : List Row) :
    ∀ st : RunState, (rows.foldl (stepState u) st).total = st.total + rows.length := by
  induction rows with
  | nil => intro st; simp
  | cons row rows ih =>
    intro st
    have h2 : (stepState u st row).total = st.total + 1 := by
      unfold stepState
      cases processRow u row <;> simp
    simp only [List.foldl_cons, List.length_cons, ih (stepState u st row), h2]
    omega

lemma outputs_length (u : DistUnit) (rows : List Row) :
    (cleanedOut u rows).length + (exclusionLog u rows).length = rows.length := by
  induction rows with
  | nil => simp [cleanedOut, exclusionLog]
  | cons row rows ih =>
    unfold cleanedOut exclusionLog at ih ⊢
    cases hr : processRow u row <;>
      simp [List.filterMap_cons, hr] <;> omega

/-- Inversion for accepted rows: the pipeline accepted via the final branch,
so every stage passed and the emitted record is `mkTrip` of the row. -/
lemma processRow_cleaned_inv (u : DistUnit) (row : Row) (t : CleanedTrip)
    (h : processRow u row = RowResult.cleaned t) :
    ∃ p d dk, row.p_dt = some p ∧ row.d_dt = some d ∧ distKm u row = some dk ∧
      t = mkTrip row p d dk := by
  rcases hp : row.p_dt with _ | p
  · simp [processRow, hp] at h
  rcases hd : row.d_dt with _ | d
  · simp [processRow, hp, hd] at h
  by_cases hdp : d ≤ p
  · simp [processRow, hp, hd, hdp] at h
  cases hc : (!in_bbox row.plat row.plon || !in_bbox row.dlat row.dlon) with
  | true => simp [processRow, hp, hd, hdp, hc] at h
  | false =>
    rcases hdist : distKm u row with _ | dk
    · simp [processRow, hp, hd, hdp, hc, hdist] at h
    by_cases hneg : dk < 0
    · simp [processRow, hp, hd, hdp, hc, hdist, hneg] at h
    by_cases hzero : dk = 0
    · simp [processRow, hp, hd, hdp, hc, hdist, hneg, hzero] at h
    cases hfare : fare_bad row.fare with
    | true => simp [processRow, hp, hd, hdp, hc, hdist, hneg, hzero, hfare] at h
    | false =>
      cases htip : tip_bad row.tip with
      | true => simp [processRow, hp, hd, hdp, hc, hdist, hneg, hzero, hfare, htip] at h
      | false =>
        by_cases hdur : durationSec p d ≤ 0
        · simp [processRow, hp, hd, hdp, hc, hdist, hneg, hzero, hfare, htip, hdur] at h
        by_cases hspd : MAX_SPEED_KMPH < avg_speed dk (durationSec p d)
        · simp [processRow, hp, hd, hdp, hc, hdist, hneg, hzero, hfare, htip, hdur, hspd] at h
        · refine ⟨p, d, dk, rfl, rfl, rfl, ?_⟩
          simp [processRow, hp, hd, hdp, hc, hdist, hneg, hzero, hfare, htip, hdur, hspd] at h
          exact h.symm

/-- For rows the pipeline can reach the duration stage on (`p < d`), the
truncated second duration is nonpositive exactly when the instants are less
than one second (1000000 microseconds) apart. -/
lemma durationSec_le_zero_iff (p d : ℤ) (h : p < d) :
    durationSec p d ≤ 0 ↔ d - p < 1000000 := by
  unfold durationSec truncQ
  have hnum : (0 : ℚ) ≤ (d : ℚ) - (p : ℚ) := by
    have : (p : ℚ) < (d : ℚ) := by exact_mod_cast h
    linarith
  have hq : (0 : ℚ) ≤ ((d : ℚ) - (p : ℚ)) / 1000000 := by positivity
  rw [if_pos hq]
  constructor
  · intro hle
    have h1 : ⌊((d : ℚ) - (p : ℚ)) / 1000000⌋ < 1 := by omega
    rw [Int.floor_lt] at h1
    rw [div_lt_iff₀ (by norm_num)] at h1
    have h2 : (d : ℚ) - (p : ℚ) < 1000000 := by push_cast at h1 ⊢; linarith
    exact_mod_cast h2
  · intro hlt
    have h2 : (d : ℚ) - (p : ℚ) < 1000000 := by exact_mod_cast hlt
    have h1 : ((d : ℚ) - (p : ℚ)) / 1000000 < 1 := by
      rw [div_lt_one (by norm_num)]
      exact h2
    have h3 : ⌊((d : ℚ) - (p : ℚ)) / 1000000⌋ < 1 := by
      rw [Int.floor_lt]
      push_cast
      exact h1
    omega

lemma digit_not_ws (c : Char) (h : isDig c = true) : pyWS c = false := by
  simp only [isDig, decide_eq_true_eq] at h
  simp only [pyWS, decide_eq_false_iff_not]
  omega

lemma dropWhile_pyWS_digits (cs : List Char) (h : ∀ c ∈ cs, isDig c = true) :
    cs.dropWhile pyWS = cs := by
  cases cs with
  | nil => rfl
  | cons c cs =>
    rw [List.dropWhile_cons]
    rw [digit_not_ws c (h c (List.mem_cons_self c cs))]
    norm_num

lemma pyStrip_digits (cs : List Char) (h : ∀ c ∈ cs, isDig c = true) :
    pyStrip cs = cs := by
  unfold pyStrip
  rw [dropWhile_pyWS_digits cs h]
  rw [dropWhile_pyWS_digits cs.reverse (fun c hc => h c (List.mem_reverse.mp hc))]
  exact List.reverse_reverse cs

lemma pyDigitsAux_digits (cs : List Char) :
    ∀ acc : ℕ, (∀ c ∈ cs, isDig c = true) →
      pyDigitsAux acc cs = some (cs.foldl (fun a c => 10 * a + (c.toNat - 48)) acc) := by
  induction cs with
  | nil => intro acc _; rfl
  | cons c cs ih =>
    intro acc h
    rw [pyDigitsAux.eq_def]
    dsimp only
    rw [h c (List.mem_cons_self c cs)]
    rw [if_pos rfl]
    rw [List.foldl_cons]
    exact ih _ (fun x hx => h x (List.mem_cons_of_mem c hx))

lemma pyDigits_digits (cs : List Char) (hne : cs ≠ [])
    (h : ∀ c ∈ cs, isDig c = true) :
    pyDigits cs = some (decVal cs) := by
  cases cs with
  | nil => exact absurd rfl hne
  | cons c cs =>
    simp only [pyDigits]
    rw [if_pos (h c (List.mem_cons_self c cs))]
    rw [pyDigitsAux_digits cs _ (fun x hx => h x (List.mem_cons_of_mem c hx))]
    unfold decVal
    rw [List.foldl_cons]
    norm_num

/-- The accepted example row is indeed accepted by the pipeline. -/
lemma wRowA_cleaned : isCleaned (processRow DistUnit.miles wRowA) = true := by
  norm_num [processRow, wRowA, in_bbox, distKm, durationSec, truncQ, avg_speed,
    fare_bad, tip_bad, NYC_LAT_MIN, NYC_LAT_MAX, NYC_LON_MIN, NYC_LON_MAX,
    MAX_SPEED_KMPH, isCleaned]

/-- Claim C1: over any input, every row yields exactly one of a cleaned
output row or an exclusion-log entry, and the final summary satisfies
`total_rows = cleaned_rows + excluded_rows` and
`excluded_rows = sum of the per-reason counts in excluded_counts`. -/
theorem run_summary_conservation (u : DistUnit) (rows : List Row) :
    (runSummary u rows).total_rows = rows.length
    ∧ (cleanedOut u rows).length + (exclusionLog u rows).length = rows.length
    ∧ (runSummary u rows).total_rows =
        (runSummary u rows).cleaned_rows + (runSummary u rows).excluded_rows
    ∧ (runSummary u rows).excluded_rows = ∑ r, (runSummary u rows).excluded_counts r := by
  have hinv := foldl_invariant u rows initState (by simp [initState])
  have htot := foldl_total u rows initState
  refine ⟨?_, outputs_length u rows, ?_, ?_⟩
  · simp [runSummary, processRun, initState] at htot ⊢
    simpa using htot
  · simp only [runSummary, processRun] at hinv ⊢
    omega
  · simp only [runSummary, processRun] at hinv ⊢
    omega

/-- Claim C2: the validation stages run in the fixed order
`bad_timestamps, bad_coordinates, bad_distance, zero_distance, bad_fare,
bad_tip, nonpositive_duration, implausible_speed`; the exclusion reason of a row
is the reason of the first failing stage (exactly one reason), and a row
failing no stage is accepted and emitted. -/
theorem validation_stage_order (u : DistUnit) (row : Row) :
    stageOrder = [Reason.bad_timestamps, Reason.bad_coordinates, Reason.bad_distance,
      Reason.zero_distance, Reason.bad_fare, Reason.bad_tip,
      Reason.nonpositive_duration, Reason.implausible_speed]
    ∧ resultReason (processRow u row) = stageOrder.find? (stageFails u row)
    ∧ (stageOrder.find? (stageFails u row) = none ↔ isCleaned (processRow u row) = true) := by
  refine ⟨rfl, resultReason_eq_find u row, ?_⟩
  rw [← resultReason_eq_find u row]
  exact resultReason_none_iff _

/-- Claim C3, counterexample: the integer parser does **not** truncate via a
floating-point conversion — `parse_int` on the cell `"3.0"` yields absent
(Python `int("3.0")` raises `ValueError`), not the integer 3. -/
theorem parse_int_float_cex :
    parse_int (some "3.0") = none ∧ ¬ parse_int (some "3.0") = some 3 := by decide

/-- Claim C3 (amended): the integer parser accepts a raw cell and returns an
integer or absent; it performs a direct integer-literal conversion (no
floating-point truncation), so a digit string parses to its decimal value
while `"3.0"` is treated as absent; it never raises — sentinel and
unparsable cells are treated as absent. -/
theorem parse_int_no_float_trunc (s : String)
    (h1 : s.toList ≠ []) (h2 : ∀ c ∈ s.toList, isDig c = true) :
    parse_int (some s) = some ((decVal s.toList : ℤ))
    ∧ parse_int (some "3.0") = none
    ∧ parse_int (some "") = none ∧ parse_int (some "\\N") = none
    ∧ parse_int none = none := by
  refine ⟨?_, by decide, by decide, by decide, rfl⟩
  have hs1 : ¬ s = "" := by
    intro e
    subst e
    exact h1 rfl
  have hs2 : ¬ s = "\\N" := by
    intro e
    subst e
    exact absurd (h2 '\\' (by decide)) (by decide)
  rw [parse_int]
  rw [if_neg (by simp [hs1, hs2])]
  rw [pyIntOfString]
  rw [pyStrip_digits s.toList h2]
  rcases hsl : s.toList with _ | ⟨c, cs⟩
  · exact absurd hsl h1
  have hc : isDig c = true := h2 c (hsl ▸ List.mem_cons_self c cs)
  split
  next rest heq =>
    exfalso
    injection heq with h4 h5
    subst h4
    exact absurd hc (by decide)
  next rest heq =>
    exfalso
    injection heq with h4 h5
    subst h4
    exact absurd hc (by decide)
  next =>
    rw [pyDigits_digits (c :: cs) (by simp) (fun x hx => h2 x (hsl ▸ hx))]
    simp

/-- Witness for the amended C3 theorem at the digit string `"3"`. -/
theorem parse_int_no_float_trunc_witness :
    ("3".toList ≠ [] ∧ ∀ c ∈ "3".toList, isDig c = true)
    ∧ parse_int (some "3") = some ((decVal "3".toList : ℤ)) :=
  ⟨⟨by decide, by decide⟩, (parse_int_no_float_trunc "3" (by decide) (by decide)).1⟩

/-- Claim C4, counterexample: a row with fare absent **and** tip absent is
accepted with emitted tip amount 0, not with an absent tip amount — the
default to 0 does not require the fare to be present. -/
theorem tip_default_cex :
    wRowA.fare = none ∧ wRowA.tip = none
    ∧ tipOf (processRow DistUnit.miles wRowA) = some 0 := by
  refine ⟨rfl, rfl, ?_⟩
  norm_num [processRow, wRowA, in_bbox, distKm, durationSec, truncQ, avg_speed,
    fare_bad, tip_bad, NYC_LAT_MIN, NYC_LAT_MAX, NYC_LON_MIN, NYC_LON_MAX,
    MAX_SPEED_KMPH, tipOf, mkTrip]

/-- Claim C4 (amended): in every emitted CleanedTrip the tip amount defaults
to 0 exactly when the tip is absent, regardless of fare presence; when the
tip is present it is emitted rounded to 2 decimals. -/
theorem tip_default_amended (u : DistUnit) (row : Row)
    (h : isCleaned (processRow u row) = true) :
    (row.tip = none → tipOf (processRow u row) = some 0)
    ∧ ∀ x, row.tip = some x → tipOf (processRow u row) = some (pyRound 2 x) := by
  cases hres : processRow u row with
  | excluded r => rw [hres] at h; simp [isCleaned] at h
  | cleaned t =>
    obtain ⟨p, d, dk, hp, hd, hdist, ht⟩ := processRow_cleaned_inv u row t hres
    subst ht
    constructor
    · intro htip
      simp [tipOf, mkTrip, htip]
    · intro x htip
      simp [tipOf, mkTrip, htip]

/-- Witness for the amended C4 theorem: the accepted example row has an
absent tip and its emitted tip amount is 0. -/
theorem tip_default_amended_witness :
    isCleaned (processRow DistUnit.miles wRowA) = true
    ∧ wRowA.tip = none
    ∧ tipOf (processRow DistUnit.miles wRowA) = some 0 :=
  ⟨wRowA_cleaned, rfl, (tip_default_amended DistUnit.miles wRowA wRowA_cleaned).1 rfl⟩

/-- Claim C5: a row whose pickup or dropoff timestamp is missing or whose
dropoff is not strictly after its pickup is excluded with reason
`bad_timestamps`, regardless of every other field. -/
theorem bad_timestamps_always_first (u : DistUnit) (row : Row)
    (h : row.p_dt = none ∨ row.d_dt = none ∨
      ∃ p d, row.p_dt = some p ∧ row.d_dt = some d ∧ d ≤ p) :
    processRow u row = RowResult.excluded Reason.bad_timestamps := by
  rcases h with h | h | ⟨p, d, hp, hd, hdp⟩
  · simp [processRow, h]
  · rcases hp : row.p_dt with _ | p <;> simp [processRow, hp, h]
  · simp [processRow, hp, hd, hdp]

/-- Witness for C5: a row whose dropoff equals its pickup (with every other
field valid) is excluded with reason `bad_timestamps`. -/
theorem bad_timestamps_always_first_witness :
    (wRowTs.p_dt = none ∨ wRowTs.d_dt = none ∨
      ∃ p d, wRowTs.p_dt = some p ∧ wRowTs.d_dt = some d ∧ d ≤ p)
    ∧ processRow DistUnit.miles wRowTs = RowResult.excluded Reason.bad_timestamps :=
  ⟨Or.inr (Or.inr ⟨0, 0, rfl, rfl, le_refl 0⟩),
    bad_timestamps_always_first DistUnit.miles wRowTs
      (Or.inr (Or.inr ⟨0, 0, rfl, rfl, le_refl 0⟩))⟩

/-- Claim C6: past the timestamp and coordinate stages, a resolved distance
of exactly zero is excluded as `zero_distance` (never `bad_distance`), and
`bad_distance` happens exactly when the resolved distance is absent or
negative. -/
theorem distance_taxonomy (u : DistUnit) (row : Row) (p d : ℤ)
    (hp : row.p_dt = some p) (hd : row.d_dt = some d) (hdp : ¬ d ≤ p)
    (hb1 : in_bbox row.plat row.plon = true) (hb2 : in_bbox row.dlat row.dlon = true) :
    (distKm u row = some 0 → processRow u row = RowResult.excluded Reason.zero_distance)
    ∧ (processRow u row = RowResult.excluded Reason.bad_distance ↔
        distKm u row = none ∨ ∃ q, distKm u row = some q ∧ q < 0) := by
  have hc : (!in_bbox row.plat row.plon || !in_bbox row.dlat row.dlon) = false := by
    simp [hb1, hb2]
  constructor
  · intro hz
    simp [processRow, hp, hd, hdp, hc, hz]
  · constructor
    · intro h
      have h2 : resultReason (processRow u row) = some Reason.bad_distance := by rw [h]; rfl
      rw [resultReason_eq_find] at h2
      have h3 := List.find?_some h2
      rcases hdist : distKm u row with _ | dk
      · exact Or.inl rfl
      · refine Or.inr ⟨dk, rfl, ?_⟩
        simp [stageFails, hdist] at h3
        exact h3
    · intro h
      rcases h with h | ⟨q, hq, hneg⟩
      · simp [processRow, hp, hd, hdp, hc, h]
      · simp [processRow, hp, hd, hdp, hc, hq, hneg]

/-- Witness for C6: a row with valid timestamps/coordinates and reported
distance 0 resolves to distance 0 and is excluded as `zero_distance`. -/
theorem distance_taxonomy_witness :
    (wRowZero.p_dt = some 0 ∧ wRowZero.d_dt = some 480000000
      ∧ ¬ (480000000 : ℤ) ≤ (0 : ℤ)
      ∧ in_bbox wRowZero.plat wRowZero.plon = true
      ∧ in_bbox wRowZero.dlat wRowZero.dlon = true
      ∧ distKm DistUnit.miles wRowZero = some 0)
    ∧ processRow DistUnit.miles wRowZero = RowResult.excluded Reason.zero_distance := by
  have hb1 : in_bbox wRowZero.plat wRowZero.plon = true := by
    norm_num [in_bbox, wRowZero, wRowA, NYC_LAT_MIN, NYC_LAT_MAX, NYC_LON_MIN, NYC_LON_MAX]
  have hb2 : in_bbox wRowZero.dlat wRowZero.dlon = true := by
    norm_num [in_bbox, wRowZero, wRowA, NYC_LAT_MIN, NYC_LAT_MAX, NYC_LON_MIN, NYC_LON_MAX]
  have hz : distKm DistUnit.miles wRowZero = some 0 := by
    norm_num [distKm, wRowZero, wRowA]
  exact ⟨⟨rfl, rfl, by decide, hb1, hb2, hz⟩,
    (distance_taxonomy DistUnit.miles wRowZero 0 480000000 rfl rfl (by decide) hb1 hb2).1 hz⟩

/-- Claim C7: the haversine distance (Earth radius 6371 km) satisfies
`haversine(p, p) = 0` for every point and `haversine(a, b) = haversine(b, a)`
for all pairs of points. -/
theorem haversine_self_and_comm :
    (∀ lat lon : ℝ, haversine_km lat lon lat lon = some 0) ∧
    (∀ lat1 lon1 lat2 lon2 : ℝ,
      haversine_km lat1 lon1 lat2 lon2 = haversine_km lat2 lon2 lat1 lon1) := by
  constructor
  · intro lat lon
    unfold haversine_km
    rw [havA_self]
    rw [if_neg (by norm_num)]
    rw [sub_zero, Real.sqrt_zero, Real.sqrt_one, atan2_zero_one]
    norm_num
  · intro lat1 lon1 lat2 lon2
    unfold haversine_km
    rw [havA_comm lat1 lon1 lat2 lon2]

/-- Claim C8: a present reported distance resolves to `reported × 1.60934`
under the miles unit (the CLI default) and to `reported` unchanged under the
km unit; an absent reported distance resolves to the haversine fallback. -/
theorem resolved_distance_conversion (row : Row) :
    (∀ r, row.reported_dist = some r →
      distKm DistUnit.miles row = some (r * 1.60934) ∧ distKm DistUnit.km row = some r)
    ∧ (∀ u, row.reported_dist = none → distKm u row = row.hv_km_pre)
    ∧ defaultDistanceUnit = DistUnit.miles := by
  refine ⟨?_, ?_, rfl⟩
  · intro r hr
    constructor <;> simp [distKm, hr]
  · intro u hr
    simp [distKm, hr]

/-- Witness for C8 at a reported distance of 2 and at an absent reported
distance with haversine fallback 3. -/
theorem resolved_distance_conversion_witness :
    (wRowMiles.reported_dist = some 2
      ∧ distKm DistUnit.miles wRowMiles = some (2 * 1.60934)
      ∧ distKm DistUnit.km wRowMiles = some 2)
    ∧ (wRowHv.reported_dist = none ∧ distKm DistUnit.miles wRowHv = wRowHv.hv_km_pre)
    ∧ defaultDistanceUnit = DistUnit.miles :=
  ⟨⟨rfl, ((resolved_distance_conversion wRowMiles).1 2 rfl).1,
      ((resolved_distance_conversion wRowMiles).1 2 rfl).2⟩,
    ⟨rfl, (resolved_distance_conversion wRowHv).2.1 DistUnit.miles rfl⟩,
    (resolved_distance_conversion wRowMiles).2.2⟩

/-- Claim C9: when both timestamps are whole-second instants, the
`nonpositive_duration` stage can never fire (the timestamp stage already
forces dropoff strictly after pickup, so the difference is at least one
whole second); the stage fires only when the instants are less than one
second apart, which requires a fractional-second timestamp. -/
theorem whole_second_duration (u : DistUnit) (row : Row) (p d : ℤ)
    (hp : row.p_dt = some p) (hd : row.d_dt = some d) :
    (p % 1000000 = 0 → d % 1000000 = 0 →
      processRow u row ≠ RowResult.excluded Reason.nonpositive_duration)
    ∧ (processRow u row = RowResult.excluded Reason.nonpositive_duration →
        p < d ∧ d - p < 1000000 ∧ ¬(p % 1000000 = 0 ∧ d % 1000000 = 0)) := by
  have key : processRow u row = RowResult.excluded Reason.nonpositive_duration →
      p < d ∧ d - p < 1000000 := by
    intro h
    have h2 : resultReason (processRow u row) = some Reason.nonpositive_duration := by
      rw [h]; rfl
    rw [resultReason_eq_find] at h2
    have h3 := List.find?_some h2
    have hts : stageFails u row Reason.bad_timestamps = false := by
      cases hts0 : stageFails u row Reason.bad_timestamps with
      | false => rfl
      | true =>
        rw [stageOrder] at h2
        simp [List.find?, hts0] at h2
    have hlt : p < d := by
      simp [stageFails, hp, hd] at hts
      omega
    have hdur : durationSec p d ≤ 0 := by
      simp [stageFails, hp, hd] at h3
      exact h3
    exact ⟨hlt, (durationSec_le_zero_iff p d hlt).mp hdur⟩
  constructor
  · intro hpm hdm hcon
    obtain ⟨hlt, hsmall⟩ := key hcon
    omega
  · intro hcon
    obtain ⟨hlt, hsmall⟩ := key hcon
    exact ⟨hlt, hsmall, fun ⟨hpm, hdm⟩ => by omega⟩

/-- Witness for C9: the timestamps of the accepted example row are whole-second
instants, so it is not excluded as `nonpositive_duration`. -/
theorem whole_second_duration_witness :
    (wRowA.p_dt = some 0 ∧ wRowA.d_dt = some 480000000
      ∧ (0 : ℤ) % 1000000 = 0 ∧ (480000000 : ℤ) % 1000000 = 0)
    ∧ processRow DistUnit.miles wRowA ≠ RowResult.excluded Reason.nonpositive_duration :=
  ⟨⟨rfl, rfl, by decide, by decide⟩,
    (whole_second_duration DistUnit.miles wRowA 0 480000000 rfl rfl).1
      (by decide) (by decide)⟩

/-- Claim C10: an accepted row never emits passenger count 0, and a raw
passenger cell that parses to 0 is emitted as the default 1 (Python
`parse_int(...) or 1` treats 0 like an absent value). -/
theorem passenger_never_zero (u : DistUnit) (row : Row)
    (h : isCleaned (processRow u row) = true) :
    passengerOf (processRow u row) ≠ some 0
    ∧ (row.passenger_raw = some 0 → passengerOf (processRow u row) = some 1) := by
  cases hres : processRow u row with
  | excluded r => rw [hres] at h; simp [isCleaned] at h
  | cleaned t =>
    obtain ⟨p, d, dk, hp, hd, hdist, ht⟩ := processRow_cleaned_inv u row t hres
    subst ht
    constructor
    · rcases hpass : row.passenger_raw with _ | n
      · simp [passengerOf, mkTrip, hpass]
      · by_cases hn : n = 0 <;> simp [passengerOf, mkTrip, hpass, hn]
    · intro hpass
      simp [passengerOf, mkTrip, hpass]

/-- Witness for C10: the accepted example row has raw passenger count 0 and
emits passenger count 1. -/
theorem passenger_never_zero_witness :
    isCleaned (processRow DistUnit.miles wRowA) = true
    ∧ wRowA.passenger_raw = some 0
    ∧ passengerOf (processRow DistUnit.miles wRowA) ≠ some 0
    ∧ passengerOf (processRow DistUnit.miles wRowA) = some 1 :=
  ⟨wRowA_cleaned, rfl,
    (passenger_never_zero DistUnit.miles wRowA wRowA_cleaned).1,
    (passenger_never_zero DistUnit.miles wRowA wRowA_cleaned).2 rfl⟩

end CleanTransform
